import Mathlib

/-!
Shallow embedding of the dashboard script of the PDF article translator
front end: the in-memory job store, the status polling tick, the pure
rendering helpers and the upload handler, together with theorems that
check the specified behavior against this embedding.  Optional string
values model JavaScript values that may be `undefined`; DOM mutation is
modelled as an append-only render log; timers created by
`window.setInterval` are recorded with their delay.
-/

/-- JavaScript truthiness of an optional string value: `undefined` and
the empty string are falsy, every other string is truthy. -/
def truthy : Option String → Bool
  | none => false
  | some s => !(s == "")

/-- The JavaScript expression `a || b` on optional string values. -/
def jsOr (a b : Option String) : Option String :=
  if truthy a then a else b

/-- The JavaScript expression `a || d` where the final fallback is a
string literal, so the result is always a plain string. -/
def jsOrD (a : Option String) (d : String) : String :=
  match a with
  | some s => if s == "" then d else s
  | none => d

/-- ASCII lowercasing, modelling `toLowerCase` on the ASCII status
strings the dashboard uses. -/
def toLowerCase (s : String) : String :=
  String.mk (s.data.map Char.toLower)

/-- A job record, `jobId -> { id, filename, status }` in the source.
`filename` and `status` are optional because rows seeded from markup may
lack them. -/
structure Job where
  id : String
  filename : Option String
  status : Option String
deriving Repr, DecidableEq

/-- The global `jobs` map, embedded as an association list in insertion
order; `set` keeps keys unique exactly as a JS `Map` does. -/
abbrev JobStore := List (String × Job)

namespace JobStore

/-- The `set` method of `Map`: overwrite the entry of an existing key in
place, otherwise append a new entry. -/
def set : JobStore → String → Job → JobStore
  | [], k, v => [(k, v)]
  | p :: m, k, v => if p.1 = k then (k, v) :: m else p :: set m k v

/-- The `get` method of `Map`. -/
def get? : JobStore → String → Option Job
  | [], _ => none
  | p :: m, k => if p.1 = k then some p.2 else get? m k

/-- The keys of the map, in insertion order. -/
def keys (m : JobStore) : List String := m.map (fun p => p.1)

/-- The `values` method of `Map`, in insertion order. -/
def values (m : JobStore) : List Job := m.map (fun p => p.2)

/-- The `size` property of `Map`. -/
def size (m : JobStore) : Nat := m.length

/-- Number of entries stored under a given key. -/
def countKey (m : JobStore) (k : String) : Nat :=
  (m.filter (fun p => p.1 = k)).length

end JobStore

/-- Characters that `encodeURIComponent` leaves unescaped. -/
def uriUnreserved (c : Char) : Bool :=
  decide ('A' ≤ c ∧ c ≤ 'Z') || decide ('a' ≤ c ∧ c ≤ 'z')
    || decide ('0' ≤ c ∧ c ≤ '9')
    || c == '-' || c == '_' || c == '.' || c == '!' || c == '~'
    || c == '*' || c == Char.ofNat 39 || c == '(' || c == ')'

/-- Uppercase hexadecimal digit. -/
def hexDigit (n : Nat) : Char :=
  if n < 10 then Char.ofNat (48 + n) else Char.ofNat (55 + n)

/-- Percent-encode one UTF-8 byte. -/
def percentByte (b : UInt8) : String :=
  String.mk ['%', hexDigit (b.toNat / 16), hexDigit (b.toNat % 16)]

/-- The browser built-in `encodeURIComponent`, modelled over the UTF-8
bytes of the escaped characters. -/
def encodeURIComponent (s : String) : String :=
  s.data.foldl
    (fun acc c =>
      if uriUnreserved c then acc.push c
      else acc ++ String.join (((String.singleton c).toUTF8.toList).map percentByte))
    ""

/-- A rendered span element: its class list and its text content. -/
structure SpanElem where
  classes : List String
  text : String
deriving Repr, DecidableEq

/-- The function `renderStatusBadge(status = 'pending')`, producing the
badge span; the default parameter applies when the argument is
`undefined`. -/
def renderStatusBadge (status : Option String) : SpanElem :=
  let st := status.getD "pending"
  let normalized := toLowerCase st
  { classes := ["badge", normalized], text := st }

/-- The content of the download cell: an active anchor with its href, or
the disabled placeholder span reading Not ready. -/
inductive DownloadCell where
  | link (href : String)
  | notReady
deriving Repr, DecidableEq

/-- The function `renderDownloadLink`: an active download anchor exactly
when the status is truthy and lowercases to done; otherwise the disabled
placeholder. -/
def renderDownloadLink (job : Job) : DownloadCell :=
  if truthy job.status && (toLowerCase (job.status.getD "") == "done") then
    .link ("/api/download/" ++ encodeURIComponent job.id)
  else
    .notReady

/-- A parsed status response body, `{ filename?, status? }`. -/
structure PollPayload where
  filename : Option String
  status : Option String
deriving Repr, DecidableEq

/-- HTTP status codes for which the `ok` property of a fetch response is
true. -/
def httpOk (code : Nat) : Bool :=
  decide (200 ≤ code ∧ code < 300)

/-- One poll outcome for a job id: a rejected fetch carries an error
message, otherwise an HTTP status code paired with the parsed JSON
body. -/
abbrev PollResult := Except String (Nat × PollPayload)

/-- True when the catch block of the per-job poll closure fires: the
fetch was rejected, or the response had a non-2xx status. -/
def pollFailedB (r : PollResult) : Bool :=
  match r with
  | .error _ => true
  | .ok (code, _) => !httpOk code

/-- The body of the per-job closure inside `pollAllJobs`: on a resolved
2xx response, merge the payload over the stored record with the
JavaScript fallback on each field, write the merged record back under
the same id, and render the row (modelled as appending to the render
log); a rejected fetch or non-2xx response is caught and leaves the
accumulator unchanged. -/
def pollOneJob (resp : String → PollResult) (acc : JobStore × List Job)
    (job : Job) : JobStore × List Job :=
  match resp job.id with
  | .error _ => acc
  | .ok (code, payload) =>
    if !httpOk code then acc
    else
      let updated : Job :=
        { id := job.id
          filename := jsOr payload.filename job.filename
          status := jsOr payload.status job.status }
      (JobStore.set acc.1 job.id updated, acc.2 ++ [updated])

/-- The function `pollAllJobs`: return early when no job is tracked,
otherwise snapshot the tracked jobs and poll each one, threading the
store and collecting the rendered rows. -/
def pollAllJobs (store : JobStore) (resp : String → PollResult) :
    JobStore × List Job :=
  if JobStore.size store = 0 then (store, [])
  else (JobStore.values store).foldl (pollOneJob resp) (store, [])

/-- The module-level mutable state of the script: the `jobs` map, the
interval handle `pollerId`, the timers created so far, and the
observable effects we track (submit button state, upload status text,
render log, form reset).  Each created timer is recorded together with
its delay in milliseconds. -/
structure DashState where
  jobs : JobStore
  pollerId : Option Nat
  nextTimerId : Nat
  activeTimers : List (Nat × Nat)
  submitDisabled : Bool
  uploadStatus : String
  renderLog : List Job
  formWasReset : Bool
deriving Repr, DecidableEq

/-- The constant `POLL_INTERVAL_MS` of the source. -/
def POLL_INTERVAL_MS : Nat := 5000

/-- The browser built-in `window.setInterval`: allocate a fresh timer id
and record the new timer with its delay. -/
def setIntervalTimer (s : DashState) (delay : Nat) : Nat × DashState :=
  (s.nextTimerId,
    { s with
      nextTimerId := s.nextTimerId + 1
      activeTimers := s.activeTimers ++ [(s.nextTimerId, delay)] })

/-- The function `startPolling`: return early when a poller is already
registered or no job is tracked, otherwise register a recurring timer
with delay `POLL_INTERVAL_MS`. -/
def startPolling (s : DashState) : DashState :=
  if s.pollerId ≠ none ∨ JobStore.size s.jobs = 0 then s
  else
    let r := setIntervalTimer s POLL_INTERVAL_MS
    { r.2 with pollerId := some r.1 }

/-- The function `renderJob`: the DOM row upsert is modelled as
appending the rendered job to the render log. -/
def renderJob (s : DashState) (job : Job) : DashState :=
  { s with renderLog := s.renderLog ++ [job] }

/-- A parsed upload response body,
`{ job_id?, id?, filename?, status? }`. -/
structure UploadPayload where
  job_id : Option String
  id : Option String
  filename : Option String
  status : Option String
deriving Repr, DecidableEq

/-- An upload fetch outcome: a rejected fetch carries an error message,
otherwise an HTTP status code paired with the parsed JSON body. -/
abbrev UploadResult := Except String (Nat × UploadPayload)

/-- The function `handleUpload`: disable the submit button, post the
form, and on a 2xx response carrying a job id build the job record with
the JavaScript fallbacks of the source, store it, render it and start
polling; a rejected fetch, a non-2xx response or a missing job id is
caught and reported in the upload status line; the finally block always
re-enables the submit button.  The `fileName` argument models the name
of the submitted file read from the form data, when available. -/
def handleUpload (s0 : DashState) (response : UploadResult)
    (fileName : Option String) : DashState :=
  let s1 := { s0 with submitDisabled := true, uploadStatus := "Uploading…" }
  let s2 :=
    match response with
    | .error msg => { s1 with uploadStatus := "Error: " ++ msg }
    | .ok (code, payload) =>
      if !httpOk code then
        { s1 with uploadStatus := "Error: Upload failed (" ++ toString code ++ ")" }
      else
        let jobId := jsOr payload.job_id payload.id
        if truthy jobId then
          let job : Job :=
            { id := jobId.getD ""
              filename := some (jsOrD payload.filename (jsOrD fileName "PDF"))
              status := some (jsOrD payload.status "pending") }
          let s3 := { s1 with jobs := JobStore.set s1.jobs job.id job }
          let s4 := renderJob s3 job
          let s5 := startPolling s4
          { s5 with uploadStatus := "Upload successful! Job created.", formWasReset := true }
        else
          { s1 with uploadStatus := "Error: Missing job id in response" }
  { s2 with submitDisabled := false }

/-! Basic lemmas about the JavaScript fallback helpers. -/

theorem truthy_some_of_ne (s : String) (h : s ≠ "") : truthy (some s) = true := by
  simp [truthy, h]

theorem jsOr_some_of_ne (s : String) (b : Option String) (h : s ≠ "") :
    jsOr (some s) b = some s := by
  simp [jsOr, truthy_some_of_ne s h]

theorem jsOr_none (b : Option String) : jsOr none b = b := rfl

theorem jsOr_some_empty (b : Option String) : jsOr (some "") b = b := rfl

theorem jsOr_falsy (a b : Option String) (h : a = none ∨ a = some "") :
    jsOr a b = b := by
  rcases h with h | h <;> subst h <;> rfl

theorem jsOrD_some_of_ne (s : String) (d : String) (h : s ≠ "") :
    jsOrD (some s) d = s := by
  simp [jsOrD, h]

theorem jsOrD_falsy (a : Option String) (d : String)
    (h : a = none ∨ a = some "") : jsOrD a d = d := by
  rcases h with h | h <;> subst h <;> rfl

/-! Lemmas about the job store. -/

namespace JobStore

theorem get?_set_self (m : JobStore) (k : String) (v : Job) :
    get? (set m k v) k = some v := by
  induction m with
  | nil => simp [set, get?]
  | cons p m ih =>
    by_cases h : p.1 = k
    · simp [set, get?, h]
    · simp [set, get?, h, ih]

theorem keys_cons (p : String × Job) (m : JobStore) :
    keys (p :: m) = p.1 :: keys m := rfl

theorem get?_set_ne (m : JobStore) (k k2 : String) (v : Job) (h : k ≠ k2) :
    get? (set m k2 v) k = get? m k := by
  have hne : ¬ k2 = k := fun he => h he.symm
  induction m with
  | nil => simp [set, get?, hne]
  | cons p m ih =>
    by_cases hp : p.1 = k2
    · have hpk : ¬ p.1 = k := by
        rw [hp]
        exact hne
      simp [set, get?, hp, hne, hpk]
    · simp [set, get?, hp, ih]

theorem mem_keys_of_mem (m : JobStore) (p : String × Job) (h : p ∈ m) :
    p.1 ∈ keys m := by
  simp only [keys, List.mem_map]
  exact ⟨p, h, rfl⟩

theorem keys_set_of_mem (m : JobStore) (k : String) (v : Job)
    (h : k ∈ keys m) : keys (set m k v) = keys m := by
  induction m with
  | nil => simp [keys] at h
  | cons p m ih =>
    by_cases hp : p.1 = k
    · simp [set, keys, hp]
    · have h2 : k ∈ keys m := by
        simp [keys] at h
        rcases h with h | h
        · exact absurd h.symm hp
        · simpa [keys] using h
      simp [set, keys, hp]
      simpa [keys] using ih h2

theorem mem_set (m : JobStore) (k : String) (v : Job) (q : String × Job)
    (h : q ∈ set m k v) : q ∈ m ∨ q = (k, v) := by
  induction m with
  | nil => simpa [set] using h
  | cons p m ih =>
    by_cases hp : p.1 = k
    · simp [set, hp] at h
      rcases h with h | h
      · right; exact h
      · left; simp [h]
    · simp [set, hp] at h
      rcases h with h | h
      · left; simp [h]
      · rcases ih h with h2 | h2
        · left; simp [h2]
        · right; exact h2

theorem countKey_cons_pos (p : String × Job) (m : JobStore) (k : String)
    (hp : p.1 = k) : countKey (p :: m) k = countKey m k + 1 := by
  simp [countKey, List.filter_cons, hp]

theorem countKey_cons_neg (p : String × Job) (m : JobStore) (k : String)
    (hp : ¬ p.1 = k) : countKey (p :: m) k = countKey m k := by
  simp [countKey, List.filter_cons, hp]

theorem countKey_eq_zero (m : JobStore) (k : String) (h : k ∉ keys m) :
    countKey m k = 0 := by
  induction m with
  | nil => rfl
  | cons p m ih =>
    rw [keys_cons, List.mem_cons] at h
    push_neg at h
    have hp : ¬ p.1 = k := fun he => h.1 he.symm
    rw [countKey_cons_neg p m k hp]
    exact ih h.2

theorem countKey_set (m : JobStore) (k : String) (v : Job)
    (h : (keys m).Nodup) : countKey (set m k v) k = 1 := by
  induction m with
  | nil => simp [set, countKey]
  | cons p m ih =>
    rw [keys_cons, List.nodup_cons] at h
    by_cases hp : p.1 = k
    · have hk : k ∉ keys m := hp ▸ h.1
      have h0 : countKey m k = 0 := countKey_eq_zero m k hk
      rw [set]
      simp only [hp, if_true]
      rw [countKey_cons_pos (k, v) m k rfl, h0]
    · rw [set]
      simp only [hp, if_false]
      rw [countKey_cons_neg p _ k hp]
      exact ih h.2

theorem get?_of_mem (m : JobStore) (k : String) (v : Job)
    (hnd : (keys m).Nodup) (h : (k, v) ∈ m) : get? m k = some v := by
  induction m with
  | nil => simp at h
  | cons p m ih =>
    rw [keys_cons, List.nodup_cons] at hnd
    rcases List.mem_cons.mp h with h1 | h1
    · simp [get?, ← h1]
    · by_cases hp : p.1 = k
      · exact absurd (mem_keys_of_mem m (k, v) h1) (hp ▸ hnd.1)
      · simp [get?, hp]
        exact ih hnd.2 h1

theorem mem_keys_of_get? (m : JobStore) (k : String) (v : Job)
    (h : get? m k = some v) : k ∈ keys m := by
  induction m with
  | nil => simp [get?] at h
  | cons p m ih =>
    by_cases hp : p.1 = k
    · simp [keys, hp]
    · simp [get?, hp] at h
      simp [keys]
      right
      simpa [keys] using ih h

end JobStore

/-! Lemmas about one polling step and the fold over the tracked jobs. -/

theorem pollOneJob_of_failed (resp : String → PollResult)
    (acc : JobStore × List Job) (job : Job)
    (h : pollFailedB (resp job.id) = true) :
    pollOneJob resp acc job = acc := by
  unfold pollOneJob
  cases hr : resp job.id with
  | error e => rfl
  | ok cp =>
    cases cp with
    | mk code payload =>
      rw [hr] at h
      simp only [pollFailedB, Bool.not_eq_true'] at h
      simp [h]

theorem pollOneJob_of_ok (resp : String → PollResult)
    (acc : JobStore × List Job) (job : Job) (code : Nat)
    (payload : PollPayload) (hr : resp job.id = .ok (code, payload))
    (hok : httpOk code = true) :
    pollOneJob resp acc job =
      (JobStore.set acc.1 job.id
        { id := job.id
          filename := jsOr payload.filename job.filename
          status := jsOr payload.status job.status },
       acc.2 ++ [{ id := job.id
                   filename := jsOr payload.filename job.filename
                   status := jsOr payload.status job.status }]) := by
  unfold pollOneJob
  rw [hr]
  simp [hok]

theorem foldl_poll_get_untouched (resp : String → PollResult)
    (l : List Job) (acc : JobStore × List Job) (k : String)
    (hl : ∀ j ∈ l, j.id ≠ k) :
    JobStore.get? (l.foldl (pollOneJob resp) acc).1 k =
      JobStore.get? acc.1 k := by
  induction l generalizing acc with
  | nil => rfl
  | cons j l ih =>
    have hj : j.id ≠ k := hl j (by simp)
    have hl2 : ∀ x ∈ l, x.id ≠ k := fun x hx => hl x (by simp [hx])
    rw [List.foldl_cons, ih _ hl2]
    unfold pollOneJob
    cases resp j.id with
    | error e => rfl
    | ok cp =>
      cases cp with
      | mk code payload =>
        by_cases hok : httpOk code
        · simp only [hok, Bool.not_true, if_false]
          exact JobStore.get?_set_ne acc.1 k j.id _ (fun he => hj he.symm)
        · simp only [Bool.not_eq_true'] at hok
          simp [hok]

theorem foldl_poll_log_mono (resp : String → PollResult) (l : List Job)
    (acc : JobStore × List Job) (u : Job) (hu : u ∈ acc.2) :
    u ∈ (l.foldl (pollOneJob resp) acc).2 := by
  induction l generalizing acc with
  | nil => exact hu
  | cons j l ih =>
    rw [List.foldl_cons]
    apply ih
    unfold pollOneJob
    cases resp j.id with
    | error e => exact hu
    | ok cp =>
      cases cp with
      | mk code payload =>
        by_cases hok : httpOk code
        · simp only [hok, Bool.not_true, if_false]
          simp [hu]
        · simp only [Bool.not_eq_true'] at hok
          simpa [hok] using hu

theorem foldl_poll_keys (resp : String → PollResult) (l : List Job)
    (acc : JobStore × List Job) (keys0 : List String)
    (hl : ∀ j ∈ l, j.id ∈ keys0)
    (hk : JobStore.keys acc.1 = keys0)
    (hinv : ∀ p ∈ acc.1, p.2.id = p.1) :
    JobStore.keys (l.foldl (pollOneJob resp) acc).1 = keys0 ∧
      ∀ p ∈ (l.foldl (pollOneJob resp) acc).1, p.2.id = p.1 := by
  induction l generalizing acc with
  | nil => exact ⟨hk, hinv⟩
  | cons j l ih =>
    rw [List.foldl_cons]
    have hj : j.id ∈ keys0 := hl j (by simp)
    have hl2 : ∀ x ∈ l, x.id ∈ keys0 := fun x hx => hl x (by simp [hx])
    cases hr : resp j.id with
    | error e =>
      rw [pollOneJob_of_failed resp acc j (by simp [pollFailedB, hr])]
      exact ih acc hl2 hk hinv
    | ok cp =>
      cases cp with
      | mk code payload =>
        by_cases hok : httpOk code
        · rw [pollOneJob_of_ok resp acc j code payload hr hok]
          apply ih
          · exact hl2
          · rw [JobStore.keys_set_of_mem acc.1 j.id _ (by rw [hk]; exact hj)]
            exact hk
          · intro p hp
            rcases JobStore.mem_set acc.1 j.id _ p hp with h2 | h2
            · exact hinv p h2
            · rw [h2]
        · simp only [Bool.not_eq_true'] at hok
          rw [pollOneJob_of_failed resp acc j (by simp [pollFailedB, hr, hok])]
          exact ih acc hl2 hk hinv

/-- Split a store with unique keys around a given entry: everything to
the left and right of the entry carries a different key. -/
theorem store_split (m : JobStore) (k : String) (v : Job)
    (hnd : (JobStore.keys m).Nodup) (hmem : (k, v) ∈ m) :
    ∃ m1 m2, m = m1 ++ (k, v) :: m2 ∧ (∀ p ∈ m1, p.1 ≠ k) ∧
      (∀ p ∈ m2, p.1 ≠ k) := by
  obtain ⟨m1, m2, rfl⟩ := List.append_of_mem hmem
  refine ⟨m1, m2, rfl, ?_, ?_⟩
  · intro p hp he
    have h1 : (JobStore.keys (m1 ++ (k, v) :: m2)) =
        JobStore.keys m1 ++ k :: JobStore.keys m2 := by
      simp [JobStore.keys]
    rw [h1] at hnd
    rcases List.nodup_append.mp hnd with ⟨_, _, hdis⟩
    exact hdis (he ▸ JobStore.mem_keys_of_mem m1 p hp) (by simp)
  · intro p hp he
    have h1 : (JobStore.keys (m1 ++ (k, v) :: m2)) =
        JobStore.keys m1 ++ k :: JobStore.keys m2 := by
      simp [JobStore.keys]
    rw [h1] at hnd
    rcases List.nodup_append.mp hnd with ⟨_, hnd2, _⟩
    rcases List.nodup_cons.mp hnd2 with ⟨hk, _⟩
    exact hk (he ▸ JobStore.mem_keys_of_mem m2 p hp)

/-! Lemmas about `startPolling` and the fields it leaves untouched. -/

theorem startPolling_of_guard (s : DashState)
    (h : s.pollerId ≠ none ∨ JobStore.size s.jobs = 0) :
    startPolling s = s := by
  unfold startPolling
  rw [if_pos h]

theorem startPolling_of_free (s : DashState) (h1 : s.pollerId = none)
    (h2 : JobStore.size s.jobs ≠ 0) :
    startPolling s =
      { s with
        pollerId := some s.nextTimerId
        nextTimerId := s.nextTimerId + 1
        activeTimers := s.activeTimers ++ [(s.nextTimerId, POLL_INTERVAL_MS)] } := by
  have h : ¬ (s.pollerId ≠ none ∨ JobStore.size s.jobs = 0) := by
    simp [h1, h2]
  unfold startPolling
  rw [if_neg h]
  simp [setIntervalTimer]

theorem startPolling_jobs (s : DashState) : (startPolling s).jobs = s.jobs := by
  by_cases h : s.pollerId ≠ none ∨ JobStore.size s.jobs = 0
  · rw [startPolling_of_guard s h]
  · push_neg at h
    rw [startPolling_of_free s h.1 h.2]

theorem startPolling_uploadStatus (s : DashState) :
    (startPolling s).uploadStatus = s.uploadStatus := by
  by_cases h : s.pollerId ≠ none ∨ JobStore.size s.jobs = 0
  · rw [startPolling_of_guard s h]
  · push_neg at h
    rw [startPolling_of_free s h.1 h.2]

theorem startPolling_renderLog (s : DashState) :
    (startPolling s).renderLog = s.renderLog := by
  by_cases h : s.pollerId ≠ none ∨ JobStore.size s.jobs = 0
  · rw [startPolling_of_guard s h]
  · push_neg at h
    rw [startPolling_of_free s h.1 h.2]

theorem startPolling_submitDisabled (s : DashState) :
    (startPolling s).submitDisabled = s.submitDisabled := by
  by_cases h : s.pollerId ≠ none ∨ JobStore.size s.jobs = 0
  · rw [startPolling_of_guard s h]
  · push_neg at h
    rw [startPolling_of_free s h.1 h.2]

theorem startPolling_idem (s : DashState) :
    startPolling (startPolling s) = startPolling s := by
  by_cases h : s.pollerId ≠ none ∨ JobStore.size s.jobs = 0
  · rw [startPolling_of_guard s h]
    exact startPolling_of_guard s h
  · push_neg at h
    rw [startPolling_of_free s h.1 h.2]
    apply startPolling_of_guard
    left
    simp

theorem startPolling_iterate (n : Nat) (s : DashState) :
    startPolling^[n + 1] s = startPolling s := by
  induction n with
  | zero => rfl
  | succ n ih => rw [Function.iterate_succ_apply', ih, startPolling_idem]

/-- C4: startPolling is a no-op on an empty job store and when a timer
is already registered, is idempotent, registers a single recurring timer
with the fixed 5000 ms interval when the store is non-empty and no timer
runs, and over any number of calls at most one timer ever exists. -/
theorem claim_C4_startPolling :
    (∀ s : DashState, JobStore.size s.jobs = 0 → startPolling s = s)
    ∧ (∀ s : DashState, s.pollerId ≠ none → startPolling s = s)
    ∧ (∀ s : DashState, startPolling (startPolling s) = startPolling s)
    ∧ (∀ s : DashState, s.pollerId = none → JobStore.size s.jobs ≠ 0 →
        (startPolling s).pollerId = some s.nextTimerId
        ∧ (startPolling s).activeTimers
            = s.activeTimers ++ [(s.nextTimerId, POLL_INTERVAL_MS)]
        ∧ POLL_INTERVAL_MS = 5000)
    ∧ (∀ (s : DashState) (n : Nat), s.activeTimers = [] →
        (startPolling^[n] s).activeTimers.length ≤ 1) := by
  refine ⟨?_, ?_, startPolling_idem, ?_, ?_⟩
  · intro s h
    exact startPolling_of_guard s (Or.inr h)
  · intro s h
    exact startPolling_of_guard s (Or.inl h)
  · intro s h1 h2
    rw [startPolling_of_free s h1 h2]
    exact ⟨rfl, rfl, rfl⟩
  · intro s n h
    cases n with
    | zero => simp [h]
    | succ n =>
      rw [startPolling_iterate]
      by_cases hg : s.pollerId ≠ none ∨ JobStore.size s.jobs = 0
      · rw [startPolling_of_guard s hg, h]
        simp
      · push_neg at hg
        rw [startPolling_of_free s hg.1 hg.2, h]
        simp

/-- C4 witness: no timer is created on an empty store, and three
consecutive calls on a one-job store leave at most one active timer. -/
theorem claim_C4_startPolling_witness :
    startPolling
        { jobs := [], pollerId := none, nextTimerId := 0, activeTimers := [],
          submitDisabled := false, uploadStatus := "", renderLog := [],
          formWasReset := false }
      = { jobs := [], pollerId := none, nextTimerId := 0, activeTimers := [],
          submitDisabled := false, uploadStatus := "", renderLog := [],
          formWasReset := false }
    ∧ (startPolling^[3]
        { jobs := [("42", { id := "42", filename := none, status := some "pending" })],
          pollerId := none, nextTimerId := 0, activeTimers := [],
          submitDisabled := false, uploadStatus := "", renderLog := [],
          formWasReset := false }).activeTimers.length ≤ 1 :=
  ⟨claim_C4_startPolling.1 _ (by decide), claim_C4_startPolling.2.2.2.2 _ 3 rfl⟩

/-- C2: renderDownloadLink yields an active link exactly when the status
lowercases to done (covering the DONE, Done and done casings), yields
the disabled placeholder for every other or absent status, and is a
pure function of the status and id fields of the job. -/
theorem claim_C2_renderDownloadLink :
    (∀ job : Job,
      (∃ href, renderDownloadLink job = DownloadCell.link href)
        ↔ (∃ st, job.status = some st ∧ toLowerCase st = "done"))
    ∧ (∀ job : Job, (∀ st, job.status = some st → toLowerCase st ≠ "done") →
        renderDownloadLink job = DownloadCell.notReady)
    ∧ (∀ j1 j2 : Job, j1.id = j2.id → j1.status = j2.status →
        renderDownloadLink j1 = renderDownloadLink j2) := by
  refine ⟨?_, ?_, ?_⟩
  · intro job
    cases hst : job.status with
    | none =>
      constructor
      · rintro ⟨href, hl⟩
        unfold renderDownloadLink at hl
        rw [hst] at hl
        simp [truthy] at hl
      · rintro ⟨st, hsome, _⟩
        cases hsome
    | some st =>
      by_cases hlow : toLowerCase st = "done"
      · have hne : st ≠ "" := by
          intro he
          rw [he] at hlow
          exact absurd hlow (by decide)
        constructor
        · intro _
          exact ⟨st, rfl, hlow⟩
        · intro _
          refine ⟨"/api/download/" ++ encodeURIComponent job.id, ?_⟩
          unfold renderDownloadLink
          rw [hst]
          simp [truthy, hne, hlow]
      · constructor
        · rintro ⟨href, hl⟩
          unfold renderDownloadLink at hl
          rw [hst] at hl
          by_cases hne : st = ""
          · rw [hne] at hl
            simp [truthy] at hl
          · simp [truthy, hne, hlow] at hl
        · rintro ⟨st2, hsome, hlow2⟩
          injection hsome with he
          rw [← he] at hlow2
          exact absurd hlow2 hlow
  · intro job h
    cases hst : job.status with
    | none =>
      unfold renderDownloadLink
      rw [hst]
      simp [truthy]
    | some st =>
      have hlow : toLowerCase st ≠ "done" := h st hst
      unfold renderDownloadLink
      rw [hst]
      by_cases hne : st = ""
      · subst hne
        simp [truthy]
      · simp [truthy, hne, hlow]
  · intro j1 j2 hid hst
    cases j1 with
    | mk i1 f1 s1 =>
      cases j2 with
      | mk i2 f2 s2 =>
        have hid2 : i1 = i2 := hid
        have hst2 : s1 = s2 := hst
        subst hid2
        subst hst2
        rfl

/-- C2 witness: the three casings of done give an active link, and a
pending or absent status gives the disabled placeholder. -/
theorem claim_C2_renderDownloadLink_witness :
    (∃ href, renderDownloadLink { id := "42", filename := none, status := some "DONE" }
        = DownloadCell.link href)
    ∧ (∃ href, renderDownloadLink { id := "42", filename := none, status := some "Done" }
        = DownloadCell.link href)
    ∧ (∃ href, renderDownloadLink { id := "42", filename := none, status := some "done" }
        = DownloadCell.link href)
    ∧ renderDownloadLink { id := "42", filename := none, status := some "pending" }
        = DownloadCell.notReady
    ∧ renderDownloadLink { id := "42", filename := none, status := none }
        = DownloadCell.notReady :=
  ⟨(claim_C2_renderDownloadLink.1 _).mpr ⟨"DONE", rfl, by decide⟩,
   (claim_C2_renderDownloadLink.1 _).mpr ⟨"Done", rfl, by decide⟩,
   (claim_C2_renderDownloadLink.1 _).mpr ⟨"done", rfl, by decide⟩,
   claim_C2_renderDownloadLink.2.1 _
     (fun st hst => by
       injection hst with h
       rw [← h]
       decide),
   claim_C2_renderDownloadLink.2.1 _ (fun st hst => by cases hst)⟩

/-- C8: the status badge shows the raw status string, case preserved, as
its text and carries the lowercased status string as its class; every
status string is accepted verbatim with no validation. -/
theorem claim_C8_renderStatusBadge (st : String) :
    (renderStatusBadge (some st)).text = st
    ∧ (renderStatusBadge (some st)).classes = ["badge", toLowerCase st] :=
  ⟨rfl, rfl⟩

/-! Reduction lemmas for the upload handler. -/

theorem truthy_eq_true_iff (a : Option String) :
    truthy a = true ↔ ∃ s, a = some s ∧ s ≠ "" := by
  cases a <;> simp [truthy]

theorem handleUpload_success_fields (s0 : DashState) (code : Nat)
    (payload : UploadPayload) (fileName : Option String) (jid : String)
    (hok : httpOk code = true)
    (hjid : jsOr payload.job_id payload.id = some jid) (hne : jid ≠ "") :
    (handleUpload s0 (.ok (code, payload)) fileName).jobs
        = JobStore.set s0.jobs jid
            { id := jid
              filename := some (jsOrD payload.filename (jsOrD fileName "PDF"))
              status := some (jsOrD payload.status "pending") }
    ∧ (handleUpload s0 (.ok (code, payload)) fileName).uploadStatus
        = "Upload successful! Job created."
    ∧ (handleUpload s0 (.ok (code, payload)) fileName).renderLog
        = s0.renderLog ++
            [{ id := jid
               filename := some (jsOrD payload.filename (jsOrD fileName "PDF"))
               status := some (jsOrD payload.status "pending") }] := by
  have ht : truthy (some jid) = true := truthy_some_of_ne jid hne
  unfold handleUpload
  simp [hok, ht, hjid, renderJob, startPolling_jobs, startPolling_uploadStatus,
    startPolling_renderLog]

theorem handleUpload_missing_id (s0 : DashState) (code : Nat)
    (payload : UploadPayload) (fileName : Option String)
    (hok : httpOk code = true)
    (hfalsy : truthy (jsOr payload.job_id payload.id) = false) :
    handleUpload s0 (.ok (code, payload)) fileName
      = { s0 with
          submitDisabled := false
          uploadStatus := "Error: Missing job id in response" } := by
  unfold handleUpload
  simp [hok, hfalsy]

theorem handleUpload_http_fail (s0 : DashState) (code : Nat)
    (payload : UploadPayload) (fileName : Option String)
    (hok : httpOk code = false) :
    handleUpload s0 (.ok (code, payload)) fileName
      = { s0 with
          submitDisabled := false
          uploadStatus := "Error: Upload failed (" ++ toString code ++ ")" } := by
  unfold handleUpload
  simp [hok]

theorem handleUpload_net_fail (s0 : DashState) (msg : String)
    (fileName : Option String) :
    handleUpload s0 (.error msg) fileName
      = { s0 with
          submitDisabled := false
          uploadStatus := "Error: " ++ msg } := by
  unfold handleUpload
  simp

theorem handleUpload_submitDisabled (s0 : DashState) (response : UploadResult)
    (fileName : Option String) :
    (handleUpload s0 response fileName).submitDisabled = false := rfl

/-- C7: every upload attempt, successful or failed, re-enables the
submit control when the handler finishes, and a non-2xx upload response
reports a failure message and leaves the job store unchanged. -/
theorem claim_C7_upload_recovery :
    (∀ (s : DashState) (response : UploadResult) (fileName : Option String),
      (handleUpload s response fileName).submitDisabled = false)
    ∧ (∀ (s : DashState) (code : Nat) (payload : UploadPayload)
        (fileName : Option String),
        httpOk code = false →
          (handleUpload s (.ok (code, payload)) fileName).jobs = s.jobs
          ∧ (handleUpload s (.ok (code, payload)) fileName).uploadStatus
              = "Error: Upload failed (" ++ toString code ++ ")") := by
  refine ⟨fun s r f => handleUpload_submitDisabled s r f, ?_⟩
  intro s code payload f h
  rw [handleUpload_http_fail s code payload f h]
  exact ⟨rfl, rfl⟩

/-- C7 witness: a 500 upload response leaves the store empty, reports
the failure, and the submit control ends up re-enabled. -/
theorem claim_C7_upload_recovery_witness :
    (handleUpload (⟨[], none, 0, [], false, "", [], false⟩ : DashState)
        (.ok (500, (⟨some "42", none, none, none⟩ : UploadPayload)))
        (some "report.pdf")).submitDisabled = false
    ∧ (handleUpload (⟨[], none, 0, [], false, "", [], false⟩ : DashState)
        (.ok (500, (⟨some "42", none, none, none⟩ : UploadPayload)))
        (some "report.pdf")).jobs = []
    ∧ (handleUpload (⟨[], none, 0, [], false, "", [], false⟩ : DashState)
        (.ok (500, (⟨some "42", none, none, none⟩ : UploadPayload)))
        (some "report.pdf")).uploadStatus
        = "Error: Upload failed (" ++ toString 500 ++ ")" :=
  ⟨claim_C7_upload_recovery.1 _ _ _,
   (claim_C7_upload_recovery.2 _ 500 _ _ (by decide)).1,
   (claim_C7_upload_recovery.2 _ 500 _ _ (by decide)).2⟩

/-- C6: a 2xx upload response whose JSON body has no job identifier
field is treated as a failure: no job is stored, nothing is rendered,
polling is not started, and an error message is surfaced. -/
theorem claim_C6_missing_job_id (s : DashState) (code : Nat)
    (payload : UploadPayload) (fileName : Option String)
    (hok : httpOk code = true)
    (h1 : payload.job_id = none) (h2 : payload.id = none) :
    (handleUpload s (.ok (code, payload)) fileName).jobs = s.jobs
    ∧ (handleUpload s (.ok (code, payload)) fileName).renderLog = s.renderLog
    ∧ (handleUpload s (.ok (code, payload)) fileName).pollerId = s.pollerId
    ∧ (handleUpload s (.ok (code, payload)) fileName).activeTimers
        = s.activeTimers
    ∧ (handleUpload s (.ok (code, payload)) fileName).uploadStatus
        = "Error: Missing job id in response" := by
  have hfalsy : truthy (jsOr payload.job_id payload.id) = false := by
    rw [jsOr, h1, h2]
    rfl
  rw [handleUpload_missing_id s code payload fileName hok hfalsy]
  exact ⟨rfl, rfl, rfl, rfl, rfl⟩

/-- C6 witness: a 200 response with an empty body surfaces the missing
job id error and changes neither store nor render log nor timers. -/
theorem claim_C6_missing_job_id_witness :
    (handleUpload (⟨[], none, 0, [], false, "", [], false⟩ : DashState)
        (.ok (200, (⟨none, none, none, none⟩ : UploadPayload)))
        (some "report.pdf")).jobs
      = (⟨[], none, 0, [], false, "", [], false⟩ : DashState).jobs
    ∧ (handleUpload (⟨[], none, 0, [], false, "", [], false⟩ : DashState)
        (.ok (200, (⟨none, none, none, none⟩ : UploadPayload)))
        (some "report.pdf")).renderLog
      = (⟨[], none, 0, [], false, "", [], false⟩ : DashState).renderLog
    ∧ (handleUpload (⟨[], none, 0, [], false, "", [], false⟩ : DashState)
        (.ok (200, (⟨none, none, none, none⟩ : UploadPayload)))
        (some "report.pdf")).pollerId
      = (⟨[], none, 0, [], false, "", [], false⟩ : DashState).pollerId
    ∧ (handleUpload (⟨[], none, 0, [], false, "", [], false⟩ : DashState)
        (.ok (200, (⟨none, none, none, none⟩ : UploadPayload)))
        (some "report.pdf")).activeTimers
      = (⟨[], none, 0, [], false, "", [], false⟩ : DashState).activeTimers
    ∧ (handleUpload (⟨[], none, 0, [], false, "", [], false⟩ : DashState)
        (.ok (200, (⟨none, none, none, none⟩ : UploadPayload)))
        (some "report.pdf")).uploadStatus
      = "Error: Missing job id in response" :=
  claim_C6_missing_job_id _ 200 _ _ (by decide) rfl rfl

/-- C10: the upload handler falls back to the id field of the response
body: a 2xx body without a truthy job_id but with a non-empty id stores
the job under that id and reports success, and the missing job id error
is raised exactly when both fields are absent or falsy. -/
theorem claim_C10_id_fallback (s : DashState) (code : Nat)
    (payload : UploadPayload) (fileName : Option String)
    (hok : httpOk code = true) :
    (∀ i, truthy payload.job_id = false → payload.id = some i → i ≠ "" →
      (∃ u, JobStore.get?
          (handleUpload s (.ok (code, payload)) fileName).jobs i = some u
        ∧ u.id = i)
      ∧ (handleUpload s (.ok (code, payload)) fileName).uploadStatus
          = "Upload successful! Job created.")
    ∧ ((handleUpload s (.ok (code, payload)) fileName).uploadStatus
          = "Error: Missing job id in response"
        ↔ truthy payload.job_id = false ∧ truthy payload.id = false) := by
  constructor
  · intro i hjf hid hne
    have hjid : jsOr payload.job_id payload.id = some i := by
      rw [jsOr, hjf]
      simp [hid]
    obtain ⟨hjobs, hstatus, hlog⟩ :=
      handleUpload_success_fields s code payload fileName i hok hjid hne
    refine ⟨⟨{ id := i
               filename := some (jsOrD payload.filename (jsOrD fileName "PDF"))
               status := some (jsOrD payload.status "pending") }, ?_, rfl⟩, hstatus⟩
    rw [hjobs]
    exact JobStore.get?_set_self s.jobs i _
  · constructor
    · intro hmsg
      by_cases hj : truthy payload.job_id = true
      · obtain ⟨j, hja, hjne⟩ := (truthy_eq_true_iff payload.job_id).mp hj
        have hjid : jsOr payload.job_id payload.id = some j := by
          rw [jsOr, hj]
          simp [hja]
        obtain ⟨_, hstatus, _⟩ :=
          handleUpload_success_fields s code payload fileName j hok hjid hjne
        rw [hstatus] at hmsg
        exact absurd hmsg (by decide)
      · have hjf : truthy payload.job_id = false := by simpa using hj
        by_cases hi : truthy payload.id = true
        · obtain ⟨i, hia, hine⟩ := (truthy_eq_true_iff payload.id).mp hi
          have hjid : jsOr payload.job_id payload.id = some i := by
            rw [jsOr, hjf]
            simp [hia]
          obtain ⟨_, hstatus, _⟩ :=
            handleUpload_success_fields s code payload fileName i hok hjid hine
          rw [hstatus] at hmsg
          exact absurd hmsg (by decide)
        · exact ⟨hjf, by simpa using hi⟩
    · rintro ⟨h1, h2⟩
      have hfalsy : truthy (jsOr payload.job_id payload.id) = false := by
        rw [jsOr, h1]
        simpa using h2
      rw [handleUpload_missing_id s code payload fileName hok hfalsy]

/-- C10 witness: a 200 response with only an id field stores the job
under that id and reports success; a 200 response with neither field
surfaces the missing job id error. -/
theorem claim_C10_id_fallback_witness :
    ((∃ u, JobStore.get?
        (handleUpload (⟨[], none, 0, [], false, "", [], false⟩ : DashState)
          (.ok (200, (⟨none, some "77", none, none⟩ : UploadPayload)))
          (some "a.pdf")).jobs "77" = some u ∧ u.id = "77")
      ∧ (handleUpload (⟨[], none, 0, [], false, "", [], false⟩ : DashState)
          (.ok (200, (⟨none, some "77", none, none⟩ : UploadPayload)))
          (some "a.pdf")).uploadStatus = "Upload successful! Job created.")
    ∧ (handleUpload (⟨[], none, 0, [], false, "", [], false⟩ : DashState)
        (.ok (200, (⟨none, none, none, none⟩ : UploadPayload)))
        (some "a.pdf")).uploadStatus = "Error: Missing job id in response" :=
  ⟨(claim_C10_id_fallback _ 200 _ _ (by decide)).1 "77" rfl rfl (by decide),
   ((claim_C10_id_fallback _ 200 _ _ (by decide)).2).mpr ⟨rfl, rfl⟩⟩

/-- C5, amended: after a successful upload with a 2xx response carrying
a non-empty job_id, the store holds exactly one entry under that id; the
stored status is the response status when that is present and
non-empty, else pending, and the stored filename is the response
filename when that is present and non-empty, else the submitted file
name when available and non-empty, else PDF: the JavaScript fallback
treats a present but empty field like an absent one. -/
theorem claim_C5_upload_store (s : DashState) (code : Nat)
    (payload : UploadPayload) (fileName : Option String) (jid : String)
    (hnd : (JobStore.keys s.jobs).Nodup)
    (hok : httpOk code = true)
    (hjid : payload.job_id = some jid) (hne : jid ≠ "") :
    JobStore.countKey (handleUpload s (.ok (code, payload)) fileName).jobs jid = 1
    ∧ ∃ u, JobStore.get?
          (handleUpload s (.ok (code, payload)) fileName).jobs jid = some u
        ∧ u.id = jid
        ∧ (∀ st, payload.status = some st → st ≠ "" → u.status = some st)
        ∧ ((payload.status = none ∨ payload.status = some "") →
            u.status = some "pending")
        ∧ (∀ fn, payload.filename = some fn → fn ≠ "" → u.filename = some fn)
        ∧ ((payload.filename = none ∨ payload.filename = some "") →
            (∀ g, fileName = some g → g ≠ "" → u.filename = some g)
            ∧ ((fileName = none ∨ fileName = some "") →
                u.filename = some "PDF")) := by
  have hjid2 : jsOr payload.job_id payload.id = some jid := by
    rw [hjid, jsOr, truthy_some_of_ne jid hne]
    simp
  obtain ⟨hjobs, hstatus, hlog⟩ :=
    handleUpload_success_fields s code payload fileName jid hok hjid2 hne
  rw [hjobs]
  refine ⟨JobStore.countKey_set s.jobs jid _ hnd,
    { id := jid
      filename := some (jsOrD payload.filename (jsOrD fileName "PDF"))
      status := some (jsOrD payload.status "pending") },
    JobStore.get?_set_self s.jobs jid _, rfl, ?_, ?_, ?_, ?_⟩
  · intro st hst hstne
    show some (jsOrD payload.status "pending") = some st
    rw [hst, jsOrD_some_of_ne st _ hstne]
  · intro h
    show some (jsOrD payload.status "pending") = some "pending"
    rw [jsOrD_falsy _ _ h]
  · intro fn hfn hfne
    show some (jsOrD payload.filename (jsOrD fileName "PDF")) = some fn
    rw [hfn, jsOrD_some_of_ne fn _ hfne]
  · intro h
    constructor
    · intro g hg hgne
      show some (jsOrD payload.filename (jsOrD fileName "PDF")) = some g
      rw [jsOrD_falsy _ _ h, hg, jsOrD_some_of_ne g _ hgne]
    · intro h2
      show some (jsOrD payload.filename (jsOrD fileName "PDF")) = some "PDF"
      rw [jsOrD_falsy _ _ h, jsOrD_falsy _ _ h2]

/-- Modelled from the claim wording for C5: the stored status is the
response status if present, else pending. -/
def claimC5Status : Option String → String
  | some st => st
  | none => "pending"

/-- C5 counterexample: a 2xx response with job_id 42 whose status field
is present but empty; the claim as stated predicts the empty status is
stored, while the handler stores pending. -/
theorem claim_C5_counterexample :
    (Option.map Job.status (JobStore.get?
        (handleUpload (⟨[], none, 0, [], false, "", [], false⟩ : DashState)
          (.ok (200, (⟨some "42", none, none, some ""⟩ : UploadPayload)))
          (some "report.pdf")).jobs "42"))
      = some (some "pending")
    ∧ claimC5Status (some "") = ""
    ∧ some (some "pending") ≠ (some (some "") : Option (Option String)) := by
  exact ⟨by decide, rfl, by decide⟩

/-- C5 witness: uploading report.pdf with a 200 response carrying job_id
42 and status pending stores exactly one entry under 42 with the
expected fields. -/
theorem claim_C5_upload_store_witness :
    JobStore.countKey
        (handleUpload (⟨[], none, 0, [], false, "", [], false⟩ : DashState)
          (.ok (200, (⟨some "42", none, none, some "pending"⟩ : UploadPayload)))
          (some "report.pdf")).jobs "42" = 1
    ∧ ∃ u, JobStore.get?
          (handleUpload (⟨[], none, 0, [], false, "", [], false⟩ : DashState)
            (.ok (200, (⟨some "42", none, none, some "pending"⟩ : UploadPayload)))
            (some "report.pdf")).jobs "42" = some u
        ∧ u.id = "42"
        ∧ (∀ st, (some "pending" : Option String) = some st → st ≠ "" →
            u.status = some st)
        ∧ (((some "pending" : Option String) = none
              ∨ (some "pending" : Option String) = some "") →
            u.status = some "pending")
        ∧ (∀ fn, (none : Option String) = some fn → fn ≠ "" →
            u.filename = some fn)
        ∧ (((none : Option String) = none
              ∨ (none : Option String) = some "") →
            (∀ g, (some "report.pdf" : Option String) = some g → g ≠ "" →
              u.filename = some g)
            ∧ (((some "report.pdf" : Option String) = none
                  ∨ (some "report.pdf" : Option String) = some "") →
                u.filename = some "PDF")) :=
  claim_C5_upload_store _ 200 _ _ "42" (by decide) (by decide) rfl (by decide)

/-- In a store whose records carry their key as id, the values of a
sublist whose keys avoid `k` all have an id different from `k`. -/
theorem ids_ne_of_keys_ne (store part : JobStore) (k : String)
    (hinv : ∀ p ∈ store, p.2.id = p.1)
    (hsub : ∀ p ∈ part, p ∈ store)
    (hne : ∀ p ∈ part, p.1 ≠ k) :
    ∀ j ∈ JobStore.values part, j.id ≠ k := by
  intro j hj
  simp only [JobStore.values, List.mem_map] at hj
  obtain ⟨p, hp, rfl⟩ := hj
  rw [hinv p (hsub p hp)]
  exact hne p hp

/-- C9: a tick preserves the tracked id set: pollAllJobs neither inserts
nor removes keys, in particular it keeps their order, and it keeps every
record id equal to its key, because each update is written back under
the id of the existing job. -/
theorem claim_C9_poll_preserves_ids (store : JobStore)
    (resp : String → PollResult)
    (hinv : ∀ p ∈ store, p.2.id = p.1) :
    JobStore.keys (pollAllJobs store resp).1 = JobStore.keys store
    ∧ ∀ p ∈ (pollAllJobs store resp).1, p.2.id = p.1 := by
  unfold pollAllJobs
  by_cases hsz : JobStore.size store = 0
  · rw [if_pos hsz]
    exact ⟨rfl, hinv⟩
  · rw [if_neg hsz]
    apply foldl_poll_keys resp _ _ (JobStore.keys store) _ rfl hinv
    intro j hj
    simp only [JobStore.values, List.mem_map] at hj
    obtain ⟨p, hp, rfl⟩ := hj
    rw [hinv p hp]
    exact JobStore.mem_keys_of_mem store p hp

/-- C9 witness: one tick on a one-job store with a successful response
keeps the key set and the id-key agreement. -/
theorem claim_C9_poll_preserves_ids_witness :
    JobStore.keys (pollAllJobs
        [("42", (⟨"42", none, some "pending"⟩ : Job))]
        (fun _ => .ok (200, (⟨some "out.pdf", some "done"⟩ : PollPayload)))).1
      = JobStore.keys [("42", (⟨"42", none, some "pending"⟩ : Job))]
    ∧ ∀ p ∈ (pollAllJobs
        [("42", (⟨"42", none, some "pending"⟩ : Job))]
        (fun _ => .ok (200, (⟨some "out.pdf", some "done"⟩ : PollPayload)))).1,
        p.2.id = p.1 :=
  claim_C9_poll_preserves_ids _ _ (by decide)

/-- C1, amended: for every job tracked in the store and every resolved
2xx poll response for it, the tick writes back, under the same id, the
record merged with the JavaScript fallback semantics: a present and
non-empty response field overrides, while an absent or present but
empty field keeps the prior value; the merged record is also rendered.
The claim as stated, which lets any present field override, fails on
present but empty fields (see the counterexample). -/
theorem claim_C1_poll_merge (store : JobStore) (resp : String → PollResult)
    (k : String) (job : Job) (code : Nat) (payload : PollPayload)
    (hnd : (JobStore.keys store).Nodup)
    (hinv : ∀ p ∈ store, p.2.id = p.1)
    (hmem : (k, job) ∈ store)
    (hresp : resp job.id = .ok (code, payload))
    (hok : httpOk code = true) :
    ∃ u, JobStore.get? (pollAllJobs store resp).1 job.id = some u
      ∧ u ∈ (pollAllJobs store resp).2
      ∧ u.id = job.id
      ∧ (∀ st, payload.status = some st → st ≠ "" → u.status = some st)
      ∧ ((payload.status = none ∨ payload.status = some "") →
          u.status = job.status)
      ∧ (∀ fn, payload.filename = some fn → fn ≠ "" → u.filename = some fn)
      ∧ ((payload.filename = none ∨ payload.filename = some "") →
          u.filename = job.filename) := by
  have hid : job.id = k := hinv (k, job) hmem
  subst hid
  obtain ⟨m1, m2, hsplit, hl1, hl2⟩ := store_split store job.id job hnd hmem
  have hsz : JobStore.size store ≠ 0 := by
    rw [hsplit]
    simp [JobStore.size]
  have hvals : JobStore.values store
      = JobStore.values m1 ++ job :: JobStore.values m2 := by
    rw [hsplit]
    simp [JobStore.values]
  have hids1 : ∀ j ∈ JobStore.values m1, j.id ≠ job.id :=
    ids_ne_of_keys_ne store m1 job.id hinv
      (fun p hp => by rw [hsplit]; exact List.mem_append_left _ hp) hl1
  have hids2 : ∀ j ∈ JobStore.values m2, j.id ≠ job.id :=
    ids_ne_of_keys_ne store m2 job.id hinv
      (fun p hp => by
        rw [hsplit]
        exact List.mem_append_right _ (List.mem_cons_of_mem _ hp)) hl2
  unfold pollAllJobs
  rw [if_neg hsz, hvals, List.foldl_append, List.foldl_cons,
    pollOneJob_of_ok resp _ job code payload hresp hok]
  refine ⟨{ id := job.id
            filename := jsOr payload.filename job.filename
            status := jsOr payload.status job.status }, ?_, ?_, rfl,
    ?_, ?_, ?_, ?_⟩
  · rw [foldl_poll_get_untouched resp _ _ _ hids2]
    exact JobStore.get?_set_self _ job.id _
  · apply foldl_poll_log_mono
    simp
  · intro st hst hstne
    show jsOr payload.status job.status = some st
    rw [hst]
    exact jsOr_some_of_ne st _ hstne
  · intro h
    exact jsOr_falsy _ _ h
  · intro fn hfn hfne
    show jsOr payload.filename job.filename = some fn
    rw [hfn]
    exact jsOr_some_of_ne fn _ hfne
  · intro h
    exact jsOr_falsy _ _ h

/-- Modelled from the claim wording for C1: the updated record is the
merge of the response over the existing record, so any present response
field overrides and only an absent field keeps the prior value. -/
def claimC1MergeStatus : Option String → Option String → Option String
  | some st, _ => some st
  | none, prior => prior

/-- C1 counterexample: a 2xx poll response whose status field is present
but empty; the claim as stated predicts the empty status replaces the
prior one, while the tick keeps the prior pending status. -/
theorem claim_C1_counterexample :
    (Option.map Job.status (JobStore.get?
        (pollAllJobs [("42", (⟨"42", some "a.pdf", some "pending"⟩ : Job))]
          (fun _ => .ok (200, (⟨none, some ""⟩ : PollPayload)))).1 "42"))
      = some (some "pending")
    ∧ claimC1MergeStatus (some "") (some "pending") = some ""
    ∧ some (some "pending") ≠ (some (some "") : Option (Option String)) := by
  exact ⟨by decide, rfl, by decide⟩

/-- C1 witness: a tracked job 42 with a done response gets the merged
record written back under 42 and rendered. -/
theorem claim_C1_poll_merge_witness :
    ∃ u, JobStore.get? (pollAllJobs
          [("42", (⟨"42", some "a.pdf", some "pending"⟩ : Job))]
          (fun _ => .ok (200, (⟨none, some "done"⟩ : PollPayload)))).1 "42"
        = some u
      ∧ u ∈ (pollAllJobs
          [("42", (⟨"42", some "a.pdf", some "pending"⟩ : Job))]
          (fun _ => .ok (200, (⟨none, some "done"⟩ : PollPayload)))).2
      ∧ u.id = "42"
      ∧ (∀ st, (some "done" : Option String) = some st → st ≠ "" →
          u.status = some st)
      ∧ (((some "done" : Option String) = none
            ∨ (some "done" : Option String) = some "") →
          u.status = some "pending")
      ∧ (∀ fn, (none : Option String) = some fn → fn ≠ "" →
          u.filename = some fn)
      ∧ (((none : Option String) = none
            ∨ (none : Option String) = some "") →
          u.filename = some "a.pdf") :=
  claim_C1_poll_merge [("42", (⟨"42", some "a.pdf", some "pending"⟩ : Job))]
    (fun _ => .ok (200, (⟨none, some "done"⟩ : PollPayload))) "42"
    (⟨"42", some "a.pdf", some "pending"⟩ : Job) 200
    (⟨none, some "done"⟩ : PollPayload) (by decide) (by decide) (by decide)
    rfl (by decide)

/-- C3: a failed poll response for a tracked job, a rejected fetch or a
non-2xx status, leaves the record of that job unchanged in the store and
keeps the job tracked for the next tick; the catch block makes the tick
total, so no exception escapes it. -/
theorem claim_C3_poll_failure (store : JobStore) (resp : String → PollResult)
    (k : String) (job : Job)
    (hnd : (JobStore.keys store).Nodup)
    (hinv : ∀ p ∈ store, p.2.id = p.1)
    (hmem : (k, job) ∈ store)
    (hfail : pollFailedB (resp job.id) = true) :
    JobStore.get? (pollAllJobs store resp).1 job.id = some job
    ∧ job.id ∈ JobStore.keys (pollAllJobs store resp).1 := by
  have hid : job.id = k := hinv (k, job) hmem
  subst hid
  obtain ⟨m1, m2, hsplit, hl1, hl2⟩ := store_split store job.id job hnd hmem
  have hsz : JobStore.size store ≠ 0 := by
    rw [hsplit]
    simp [JobStore.size]
  have hvals : JobStore.values store
      = JobStore.values m1 ++ job :: JobStore.values m2 := by
    rw [hsplit]
    simp [JobStore.values]
  have hids1 : ∀ j ∈ JobStore.values m1, j.id ≠ job.id :=
    ids_ne_of_keys_ne store m1 job.id hinv
      (fun p hp => by rw [hsplit]; exact List.mem_append_left _ hp) hl1
  have hids2 : ∀ j ∈ JobStore.values m2, j.id ≠ job.id :=
    ids_ne_of_keys_ne store m2 job.id hinv
      (fun p hp => by
        rw [hsplit]
        exact List.mem_append_right _ (List.mem_cons_of_mem _ hp)) hl2
  have hget : JobStore.get? (pollAllJobs store resp).1 job.id = some job := by
    unfold pollAllJobs
    rw [if_neg hsz, hvals, List.foldl_append, List.foldl_cons,
      pollOneJob_of_failed resp _ job hfail,
      foldl_poll_get_untouched resp _ _ _ hids2,
      foldl_poll_get_untouched resp _ _ _ hids1]
    exact JobStore.get?_of_mem store job.id job hnd hmem
  exact ⟨hget, JobStore.mem_keys_of_get? _ _ _ hget⟩

/-- C3 witness: a poll for job 42 answered with HTTP 500 leaves the row
unchanged and the job tracked. -/
theorem claim_C3_poll_failure_witness :
    JobStore.get? (pollAllJobs
        [("42", (⟨"42", some "report.pdf", some "pending"⟩ : Job))]
        (fun _ => .ok (500, (⟨none, none⟩ : PollPayload)))).1 "42"
      = some (⟨"42", some "report.pdf", some "pending"⟩ : Job)
    ∧ "42" ∈ JobStore.keys (pollAllJobs
        [("42", (⟨"42", some "report.pdf", some "pending"⟩ : Job))]
        (fun _ => .ok (500, (⟨none, none⟩ : PollPayload)))).1 :=
  claim_C3_poll_failure [("42", (⟨"42", some "report.pdf", some "pending"⟩ : Job))]
    (fun _ => .ok (500, (⟨none, none⟩ : PollPayload))) "42"
    (⟨"42", some "report.pdf", some "pending"⟩ : Job) (by decide) (by decide)
    (by decide) (by decide)
